import Mathlib

set_option maxRecDepth 8000

/-!
Verification of the token-authentication / ownership / reaction-counter core
of the back-admin blog service, as a shallow embedding in Lean.

The embedding mirrors, definition by definition:
  * `core/models.py`   — the `Like` model (its overridden `save`, `delete`,
    `update_counters`, `clean` and its `Meta.constraints`), and the atomic
    per-row counter updates on `Article` and `Comment`
    (`increment_like_count` etc., which execute `F('x') ± 1` server side);
  * `core/services.py` — `LikeService.toggle_like` and
    `LikeService._update_counters`;
  * `core/authentication.py` — `TokenAuthentication.authenticate`,
    `TokenService.create_user_token`, `TokenService.revoke_user_tokens`,
    `TokenService.get_user_from_token`;
  * `api/auth.py` / `api/auth/router.py` — the logout endpoint and the
    token-issuance responses;
  * `core/permissions.py` — `IsOwnerOrReadOnly.__call__`, and the
    model-level `Article.can_edit` / `Article.can_delete`.

Database tables are embedded as lists of rows; the two denormalized counter
columns (`like_count` on articles, `like_count`/`dislike_count` on comments)
are embedded as maps from row id to an integer value, and the ORM's atomic
relative updates (`.update(like_count=F('like_count') + 1)`) become pointwise
updates of those maps.  Machine integers do not overflow on these paths, so
counters are plain `Int`.
-/

namespace BackAdmin

/-- Pointwise update of a keyed counter column: the effect of
`Model.objects.filter(pk=k).update(col=v)` on the column map. -/
def updFun (f : Nat → Int) (k : Nat) (v : Int) : Nat → Int :=
  fun x => if x = k then v else f x

/-- `Like.LikeType` from `core/models.py`: the reaction kind. -/
inductive LikeType where
  | like
  | dislike
deriving DecidableEq, Repr

/-- One row of the `Like` table (`core/models.py`, class `Like`): the user FK,
the two nullable target FKs (`article`, `comment`) and the reaction kind.
`pk` is the surrogate primary key assigned on insert. -/
structure Like where
  pk : Nat
  user : Nat
  article : Option Nat
  comment : Option Nat
  like_type : LikeType
deriving DecidableEq, Repr

/-- The slice of database state the reaction subsystem touches: the `Like`
table, the next fresh primary key, and the three denormalized counter
columns, keyed by article id or comment id. -/
structure BlogState where
  likes : List Like
  nextPk : Nat
  article_like_count : Nat → Int
  comment_like_count : Nat → Int
  comment_dislike_count : Nat → Int

/-- `Article.increment_like_count` (`core/models.py` 1158-1165):
`Article.objects.filter(pk=...).update(like_count=F('like_count') + 1)`. -/
def Article.increment_like_count (st : BlogState) (a : Nat) : BlogState :=
  { st with article_like_count :=
      updFun st.article_like_count a (st.article_like_count a + 1) }

/-- `Article.decrement_like_count` (`core/models.py` 1167-1174). -/
def Article.decrement_like_count (st : BlogState) (a : Nat) : BlogState :=
  { st with article_like_count :=
      updFun st.article_like_count a (st.article_like_count a - 1) }

/-- `Comment.increment_like_count` (`core/models.py` 1425-1432). -/
def Comment.increment_like_count (st : BlogState) (c : Nat) : BlogState :=
  { st with comment_like_count :=
      updFun st.comment_like_count c (st.comment_like_count c + 1) }

/-- `Comment.decrement_like_count` (`core/models.py` 1434-1441). -/
def Comment.decrement_like_count (st : BlogState) (c : Nat) : BlogState :=
  { st with comment_like_count :=
      updFun st.comment_like_count c (st.comment_like_count c - 1) }

/-- `Comment.increment_dislike_count` (`core/models.py` 1443-1450). -/
def Comment.increment_dislike_count (st : BlogState) (c : Nat) : BlogState :=
  { st with comment_dislike_count :=
      updFun st.comment_dislike_count c (st.comment_dislike_count c + 1) }

/-- `Comment.decrement_dislike_count` (`core/models.py` 1452-1459). -/
def Comment.decrement_dislike_count (st : BlogState) (c : Nat) : BlogState :=
  { st with comment_dislike_count :=
      updFun st.comment_dislike_count c (st.comment_dislike_count c - 1) }

/-- `Like.clean` (`core/models.py` 1591-1602) as a boolean: it raises unless
at least one target is set and not both are set. -/
def Like.clean_ok (article comment : Option Nat) : Bool :=
  (article.isSome || comment.isSome) && !(article.isSome && comment.isSome)

/-- The shared row lookup `Like.objects.filter(user=.., article=..).first()`
(resp. `comment=..`), used both by `LikeService.toggle_like`
(`core/services.py` 998-1002) and inside `Like.save`
(`core/models.py` 1613-1624): filter on the user and on whichever target FK
is set, and take the first row. -/
def findLike (st : BlogState) (user : Nat) (article comment : Option Nat) :
    Option Like :=
  match article with
  | some a =>
      (st.likes.filter
        (fun r => decide (r.user = user) && decide (r.article = some a))).head?
  | none =>
      match comment with
      | some c =>
          (st.likes.filter
            (fun r => decide (r.user = user) && decide (r.comment = some c))).head?
      | none => none

/-- `Like.update_counters` (`core/models.py` 1644-1656): the model-level hook
run after `save`, incrementing one counter for the row's current type
(`if self.article: ... elif self.comment: ...`). -/
def Like.update_counters (r : Like) (st : BlogState) : BlogState :=
  match r.article with
  | some a =>
      if r.like_type = LikeType.like then Article.increment_like_count st a
      else st
  | none =>
      match r.comment with
      | some c =>
          if r.like_type = LikeType.like then Comment.increment_like_count st c
          else Comment.increment_dislike_count st c
      | none => st

/-- The counter-decrement step of `Like.delete` (`core/models.py` 1666-1673),
run after the row is removed: `if self.article and like: ... elif
self.comment: ...`. -/
def Like.delete_counters (r : Like) (st1 : BlogState) : BlogState :=
  match r.article, r.comment, r.like_type with
  | some a, _, LikeType.like => Article.decrement_like_count st1 a
  | some _, none, LikeType.dislike => st1
  | some _, some c, LikeType.dislike => Comment.decrement_dislike_count st1 c
  | none, some c, LikeType.like => Comment.decrement_like_count st1 c
  | none, some c, LikeType.dislike => Comment.decrement_dislike_count st1 c
  | none, none, _ => st1

/-- `Like.delete` (`core/models.py` 1658-1673): delete the row
(`super().delete()`), then decrement the counter matching the row's target
and type. -/
def Like.delete (r : Like) (st : BlogState) : BlogState :=
  Like.delete_counters r
    { st with likes := st.likes.filter (fun x => decide (x.pk ≠ r.pk)) }

/-- The `is_new = False` path of `Like.save` (`core/models.py` 1604-1642):
`clean`, persist the row in place, then run `update_counters`. -/
def Like.save_existing (r : Like) (st : BlogState) : Option BlogState :=
  if Like.clean_ok r.article r.comment then
    some (Like.update_counters r
      { st with likes := st.likes.map (fun x => if x.pk = r.pk then r else x) })
  else none

/-- The `is_new = True` path of `Like.save` (`core/models.py` 1604-1642), the
path taken by `Like.objects.create`: `clean`, look for an existing row of the
same (user, target) pair; same type → delete it; different type → retype and
re-save it; none → insert the row and run `update_counters`. -/
def Like.save_new (user : Nat) (article comment : Option Nat) (lt : LikeType)
    (st : BlogState) : Option BlogState :=
  if Like.clean_ok article comment then
    match findLike st user article comment with
    | some ex =>
        if ex.like_type = lt then some (Like.delete ex st)
        else Like.save_existing { ex with like_type := lt } st
    | none =>
        some (Like.update_counters ⟨st.nextPk, user, article, comment, lt⟩
          { st with
            likes := (st.likes ++ [⟨st.nextPk, user, article, comment, lt⟩]),
            nextPk := st.nextPk + 1 })
  else none

/-- `LikeService._update_counters` (`core/services.py` 1042-1107): the
service-level counter adjustment, an exact transcription of its `if` chain
over (target, old type, new type). -/
def LikeService.update_counters_svc (article comment : Option Nat)
    (old_type new_type : Option LikeType) (st : BlogState) : BlogState :=
  match article with
  | some a =>
      if old_type = some LikeType.like ∧ new_type = some LikeType.dislike then
        Article.decrement_like_count st a
      else if old_type = some LikeType.dislike ∧ new_type = some LikeType.like then
        Article.increment_like_count st a
      else if old_type = none ∧ new_type = some LikeType.like then
        Article.increment_like_count st a
      else if old_type = some LikeType.like ∧ new_type = none then
        Article.decrement_like_count st a
      else st
  | none =>
      match comment with
      | some c =>
          if old_type = some LikeType.like ∧ new_type = some LikeType.dislike then
            Comment.increment_dislike_count (Comment.decrement_like_count st c) c
          else if old_type = some LikeType.dislike ∧ new_type = some LikeType.like then
            Comment.decrement_dislike_count (Comment.increment_like_count st c) c
          else if old_type = none ∧ new_type = some LikeType.like then
            Comment.increment_like_count st c
          else if old_type = none ∧ new_type = some LikeType.dislike then
            Comment.increment_dislike_count st c
          else if new_type = none ∧ old_type = some LikeType.like then
            Comment.decrement_like_count st c
          else if new_type = none ∧ old_type = some LikeType.dislike then
            Comment.decrement_dislike_count st c
          else st
      | none => st

/-- Result value of `LikeService.toggle_like`. -/
inductive LikeAction where
  | added
  | removed
  | changed
deriving DecidableEq, Repr

/-- `LikeService.toggle_like` (`core/services.py` 976-1040): validate the
target arguments, look up the existing reaction row, then delete / retype /
create it — each persistence step running the overridden model methods —
and afterwards (for the `changed` and `added` branches) apply the
service-level `_update_counters`.  `none` models a raised error. -/
def LikeService.toggle_like (user : Nat) (article comment : Option Nat)
    (lt : LikeType) (st : BlogState) : Option (LikeAction × BlogState) :=
  if article = none ∧ comment = none then none
  else if article.isSome ∧ comment.isSome then none
  else
    match findLike st user article comment with
    | some like =>
        if like.like_type = lt then
          some (LikeAction.removed, Like.delete like st)
        else
          match Like.save_existing { like with like_type := lt } st with
          | some st1 =>
              some (LikeAction.changed,
                LikeService.update_counters_svc article comment
                  (some like.like_type) (some lt) st1)
          | none => none
    | none =>
        match Like.save_new user article comment lt st with
        | some st1 =>
            some (LikeAction.added,
              LikeService.update_counters_svc article comment
                none (some lt) st1)
        | none => none

/-- A fresh database slice: no reaction rows, all counters zero. -/
def initialState : BlogState :=
  ⟨[], 0, fun _ => 0, fun _ => 0, fun _ => 0⟩

/-- One reaction request against the service: the principal, the two optional
targets (exactly one is set on well-formed requests), and the kind. -/
structure ToggleReq where
  user : Nat
  article : Option Nat
  comment : Option Nat
  lt : LikeType

/-- Run one `toggle_like` call against the database state; a raised error
leaves the state unchanged (the transaction aborts). -/
def applyToggle (st : BlogState) (q : ToggleReq) : BlogState :=
  match LikeService.toggle_like q.user q.article q.comment q.lt st with
  | some p => p.2
  | none => st

/-- Run a sequence of `toggle_like` calls. -/
def runToggles (st : BlogState) (qs : List ToggleReq) : BlogState :=
  qs.foldl applyToggle st

/-- The number of `like`-typed rows targeting article `a`. -/
def articleLikeRows (st : BlogState) (a : Nat) : Nat :=
  st.likes.countP
    (fun r => decide (r.article = some a) && decide (r.like_type = LikeType.like))

/-- The number of `like`-typed rows targeting comment `c`. -/
def commentLikeRows (st : BlogState) (c : Nat) : Nat :=
  st.likes.countP
    (fun r => decide (r.comment = some c) && decide (r.like_type = LikeType.like))

/-- The number of `dislike`-typed rows targeting comment `c`. -/
def commentDislikeRows (st : BlogState) (c : Nat) : Nat :=
  st.likes.countP
    (fun r => decide (r.comment = some c) && decide (r.like_type = LikeType.dislike))

/-- The database-state invariant every real deployment starts in (fresh
resources have zero counters and no reaction rows) and that toggling
preserves: rows reference at most one target, primary keys are fresh and
distinct, and each denormalized counter is at least the number of rows it is
supposed to summarize (the code overcounts, see the C1 theorem, so equality
does not hold — but the counter never falls below the row count, which is
what keeps it non-negative). -/
structure Consistent (st : BlogState) : Prop where
  notBoth : ∀ r ∈ st.likes, ¬(r.article.isSome = true ∧ r.comment.isSome = true)
  pkNodup : (st.likes.map Like.pk).Nodup
  pkLt : ∀ r ∈ st.likes, r.pk < st.nextPk
  artLike : ∀ a, (articleLikeRows st a : Int) ≤ st.article_like_count a
  comLike : ∀ c, (commentLikeRows st c : Int) ≤ st.comment_like_count c
  comDis : ∀ c, (commentDislikeRows st c : Int) ≤ st.comment_dislike_count c

theorem mem_of_head?_eq_some {α : Type} {l : List α} {x : α}
    (h : l.head? = some x) : x ∈ l := by
  cases l with
  | nil => cases h
  | cons a t =>
      simp only [List.head?_cons, Option.some.injEq] at h
      exact h ▸ List.mem_cons_self a t

theorem map_eq_self_of_mem {α : Type} {f : α → α} {l : List α}
    (h : ∀ x ∈ l, f x = x) : l.map f = l := by
  induction l with
  | nil => rfl
  | cons a t ih =>
      simp only [List.map_cons, h a (List.mem_cons_self a t),
        ih (fun x hx => h x (List.mem_cons_of_mem a hx))]

theorem filter_eq_self_of_mem {α : Type} {p : α → Bool} {l : List α}
    (h : ∀ x ∈ l, p x = true) : l.filter p = l := by
  induction l with
  | nil => rfl
  | cons a t ih =>
      rw [List.filter_cons, if_pos (h a (List.mem_cons_self a t))]
      rw [ih (fun x hx => h x (List.mem_cons_of_mem a hx))]

theorem countP_remove_pk (l : List Like) (ex : Like)
    (hN : (l.map Like.pk).Nodup) (hm : ex ∈ l) (p : Like → Bool) :
    (l.filter (fun x => decide (x.pk ≠ ex.pk))).countP p
      + (if p ex then 1 else 0) = l.countP p := by
  induction l with
  | nil => cases hm
  | cons h tl ih =>
      simp only [List.map_cons, List.nodup_cons] at hN
      by_cases hhe : h = ex
      · subst hhe
        have hfilter : tl.filter (fun x => decide (x.pk ≠ h.pk)) = tl := by
          apply filter_eq_self_of_mem
          intro x hx
          simp only [ne_eq, decide_eq_true_eq]
          intro he
          exact hN.1 (he ▸ List.mem_map_of_mem Like.pk hx)
        rw [List.filter_cons, if_neg (by simp), hfilter, List.countP_cons]
      · have hmtl : ex ∈ tl := by
          rcases List.mem_cons.mp hm with hm1 | hm1
          · exact absurd hm1.symm hhe
          · exact hm1
        have hne : h.pk ≠ ex.pk := by
          intro he
          exact hN.1 (he ▸ List.mem_map_of_mem Like.pk hmtl)
        rw [List.filter_cons, if_pos (by simp [hne]), List.countP_cons,
          List.countP_cons]
        have := ih hN.2 hmtl
        omega

theorem countP_append_one (l : List Like) (r : Like) (p : Like → Bool) :
    (l ++ [r]).countP p = l.countP p + (if p r then 1 else 0) := by
  simp [List.countP_append, List.countP_cons]

theorem updFun_apply (f : Nat → Int) (k : Nat) (v : Int) (x : Nat) :
    updFun f k v x = if x = k then v else f x := rfl

theorem findLike_some_article {st : BlogState} {u a : Nat} {c : Option Nat}
    {ex : Like} (h : findLike st u (some a) c = some ex) :
    ex ∈ st.likes ∧ ex.user = u ∧ ex.article = some a := by
  unfold findLike at h
  have hm := mem_of_head?_eq_some h
  have hp := List.of_mem_filter hm
  simp only [Bool.and_eq_true, decide_eq_true_eq] at hp
  exact ⟨List.mem_of_mem_filter hm, hp.1, hp.2⟩

theorem findLike_some_comment {st : BlogState} {u c : Nat} {ex : Like}
    (h : findLike st u none (some c) = some ex) :
    ex ∈ st.likes ∧ ex.user = u ∧ ex.comment = some c := by
  unfold findLike at h
  have hm := mem_of_head?_eq_some h
  have hp := List.of_mem_filter hm
  simp only [Bool.and_eq_true, decide_eq_true_eq] at hp
  exact ⟨List.mem_of_mem_filter hm, hp.1, hp.2⟩


/-- C1: evaluating the code at the failing input.  On a pair with no existing
reaction and request kind `like`, one `toggle_like` call reports `added` but
raises the article's `like_count` from 0 to 2, not to 1: the counter is
incremented once by the model-level `Like.update_counters` hook inside
`Like.save` and a second time by the service-level
`LikeService._update_counters`.  Likewise a first `dislike` on a comment
raises its `dislike_count` from 0 to 2. -/
theorem toggle_like_new_reaction_double_increments :
    (LikeService.toggle_like 1 (some 1) none LikeType.like initialState).map
        (fun p => (p.1, p.2.article_like_count 1)) = some (LikeAction.added, 2)
    ∧ (LikeService.toggle_like 1 none (some 5) LikeType.dislike initialState).map
        (fun p => (p.1, p.2.comment_dislike_count 5))
      = some (LikeAction.added, 2) := by
  exact ⟨rfl, rfl⟩

/-- C2: evaluating the code at the failing input.  Toggling `like` twice on a
fresh article does return the reaction state to `None` (the second call
reports `removed` and the `Like` row set is empty again), but the article's
`like_count` ends at 1, not at its original value 0: the first call added 2
(see the C1 theorem) and the removal only subtracts 1. -/
theorem toggle_like_twice_leaves_residual_count :
    ((LikeService.toggle_like 1 (some 1) none LikeType.like initialState).bind
        (fun p => LikeService.toggle_like 1 (some 1) none LikeType.like p.2)).map
        (fun p => (p.1, p.2.likes, p.2.article_like_count 1))
      = some (LikeAction.removed, [], 1) := by
  exact rfl


theorem consistent_delete (st : BlogState) (h : Consistent st) (ex : Like)
    (hm : ex ∈ st.likes) : Consistent (Like.delete ex st) := by
  obtain ⟨hnb, hnd, hlt, hal, hcl, hcd⟩ := h
  have hnbex := hnb ex hm
  have hcount := fun p => countP_remove_pk st.likes ex hnd hm p
  have hsub : ∀ r ∈ st.likes.filter (fun x => decide (x.pk ≠ ex.pk)),
      r ∈ st.likes := fun r hr => List.mem_of_mem_filter hr
  have hndf : ((st.likes.filter (fun x => decide (x.pk ≠ ex.pk))).map
      Like.pk).Nodup :=
    List.Sublist.nodup ((List.filter_sublist st.likes).map Like.pk) hnd
  obtain ⟨epk, eu, ea, ec, elt⟩ := ex
  cases ea with
  | some a =>
      cases ec with
      | some c => simp at hnbex
      | none =>
          cases elt with
          | like =>
              refine ⟨fun r hr => hnb r (hsub r hr), hndf,
                fun r hr => hlt r (hsub r hr), ?_, ?_, ?_⟩
              · intro x
                have hc := hcount (fun r =>
                  decide (r.article = some x) && decide (r.like_type = LikeType.like))
                have hI := hal x
                dsimp only at hc
                simp only [Like.delete, Like.delete_counters,
                  Article.decrement_like_count, Comment.decrement_like_count,
                  Comment.decrement_dislike_count, articleLikeRows,
                  commentLikeRows, commentDislikeRows, updFun_apply] at hI ⊢
                by_cases hx : x = a
                · subst hx
                  simp only [eq_self_iff_true, decide_True, Bool.and_self,
                    if_true] at hc
                  rw [if_pos rfl]
                  omega
                · rw [if_neg hx]
                  omega
              · intro x
                have hc := hcount (fun r =>
                  decide (r.comment = some x) && decide (r.like_type = LikeType.like))
                have hI := hcl x
                dsimp only at hc
                simp only [Like.delete, Like.delete_counters,
                  Article.decrement_like_count, Comment.decrement_like_count,
                  Comment.decrement_dislike_count, articleLikeRows,
                  commentLikeRows, commentDislikeRows, updFun_apply] at hI ⊢
                omega
              · intro x
                have hc := hcount (fun r =>
                  decide (r.comment = some x) && decide (r.like_type = LikeType.dislike))
                have hI := hcd x
                dsimp only at hc
                simp only [Like.delete, Like.delete_counters,
                  Article.decrement_like_count, Comment.decrement_like_count,
                  Comment.decrement_dislike_count, articleLikeRows,
                  commentLikeRows, commentDislikeRows, updFun_apply] at hI ⊢
                omega
          | dislike =>
              refine ⟨fun r hr => hnb r (hsub r hr), hndf,
                fun r hr => hlt r (hsub r hr), ?_, ?_, ?_⟩
              · intro x
                have hc := hcount (fun r =>
                  decide (r.article = some x) && decide (r.like_type = LikeType.like))
                have hI := hal x
                dsimp only at hc
                simp only [Like.delete, Like.delete_counters,
                  Article.decrement_like_count, Comment.decrement_like_count,
                  Comment.decrement_dislike_count, articleLikeRows,
                  commentLikeRows, commentDislikeRows, updFun_apply] at hI ⊢
                omega
              · intro x
                have hc := hcount (fun r =>
                  decide (r.comment = some x) && decide (r.like_type = LikeType.like))
                have hI := hcl x
                dsimp only at hc
                simp only [Like.delete, Like.delete_counters,
                  Article.decrement_like_count, Comment.decrement_like_count,
                  Comment.decrement_dislike_count, articleLikeRows,
                  commentLikeRows, commentDislikeRows, updFun_apply] at hI ⊢
                omega
              · intro x
                have hc := hcount (fun r =>
                  decide (r.comment = some x) && decide (r.like_type = LikeType.dislike))
                have hI := hcd x
                dsimp only at hc
                simp only [Like.delete, Like.delete_counters,
                  Article.decrement_like_count, Comment.decrement_like_count,
                  Comment.decrement_dislike_count, articleLikeRows,
                  commentLikeRows, commentDislikeRows, updFun_apply] at hI ⊢
                omega
  | none =>
      cases ec with
      | none =>
          cases elt with
          | like =>
              refine ⟨fun r hr => hnb r (hsub r hr), hndf,
                fun r hr => hlt r (hsub r hr), ?_, ?_, ?_⟩
              · intro x
                have hc := hcount (fun r =>
                  decide (r.article = some x) && decide (r.like_type = LikeType.like))
                have hI := hal x
                dsimp only at hc
                simp only [Like.delete, Like.delete_counters,
                  Article.decrement_like_count, Comment.decrement_like_count,
                  Comment.decrement_dislike_count, articleLikeRows,
                  commentLikeRows, commentDislikeRows, updFun_apply] at hI ⊢
                omega
              · intro x
                have hc := hcount (fun r =>
                  decide (r.comment = some x) && decide (r.like_type = LikeType.like))
                have hI := hcl x
                dsimp only at hc
                simp only [Like.delete, Like.delete_counters,
                  Article.decrement_like_count, Comment.decrement_like_count,
                  Comment.decrement_dislike_count, articleLikeRows,
                  commentLikeRows, commentDislikeRows, updFun_apply] at hI ⊢
                omega
              · intro x
                have hc := hcount (fun r =>
                  decide (r.comment = some x) && decide (r.like_type = LikeType.dislike))
                have hI := hcd x
                dsimp only at hc
                simp only [Like.delete, Like.delete_counters,
                  Article.decrement_like_count, Comment.decrement_like_count,
                  Comment.decrement_dislike_count, articleLikeRows,
                  commentLikeRows, commentDislikeRows, updFun_apply] at hI ⊢
                omega
          | dislike =>
              refine ⟨fun r hr => hnb r (hsub r hr), hndf,
                fun r hr => hlt r (hsub r hr), ?_, ?_, ?_⟩
              · intro x
                have hc := hcount (fun r =>
                  decide (r.article = some x) && decide (r.like_type = LikeType.like))
                have hI := hal x
                dsimp only at hc
                simp only [Like.delete, Like.delete_counters,
                  Article.decrement_like_count, Comment.decrement_like_count,
                  Comment.decrement_dislike_count, articleLikeRows,
                  commentLikeRows, commentDislikeRows, updFun_apply] at hI ⊢
                omega
              · intro x
                have hc := hcount (fun r =>
                  decide (r.comment = some x) && decide (r.like_type = LikeType.like))
                have hI := hcl x
                dsimp only at hc
                simp only [Like.delete, Like.delete_counters,
                  Article.decrement_like_count, Comment.decrement_like_count,
                  Comment.decrement_dislike_count, articleLikeRows,
                  commentLikeRows, commentDislikeRows, updFun_apply] at hI ⊢
                omega
              · intro x
                have hc := hcount (fun r =>
                  decide (r.comment = some x) && decide (r.like_type = LikeType.dislike))
                have hI := hcd x
                dsimp only at hc
                simp only [Like.delete, Like.delete_counters,
                  Article.decrement_like_count, Comment.decrement_like_count,
                  Comment.decrement_dislike_count, articleLikeRows,
                  commentLikeRows, commentDislikeRows, updFun_apply] at hI ⊢
                omega
      | some c =>
          cases elt with
          | like =>
              refine ⟨fun r hr => hnb r (hsub r hr), hndf,
                fun r hr => hlt r (hsub r hr), ?_, ?_, ?_⟩
              · intro x
                have hc := hcount (fun r =>
                  decide (r.article = some x) && decide (r.like_type = LikeType.like))
                have hI := hal x
                dsimp only at hc
                simp only [Like.delete, Like.delete_counters,
                  Article.decrement_like_count, Comment.decrement_like_count,
                  Comment.decrement_dislike_count, articleLikeRows,
                  commentLikeRows, commentDislikeRows, updFun_apply] at hI ⊢
                omega
              · intro x
                have hc := hcount (fun r =>
                  decide (r.comment = some x) && decide (r.like_type = LikeType.like))
                have hI := hcl x
                dsimp only at hc
                simp only [Like.delete, Like.delete_counters,
                  Article.decrement_like_count, Comment.decrement_like_count,
                  Comment.decrement_dislike_count, articleLikeRows,
                  commentLikeRows, commentDislikeRows, updFun_apply] at hI ⊢
                by_cases hx : x = c
                · subst hx
                  simp only [eq_self_iff_true, decide_True, Bool.and_self,
                    if_true] at hc
                  rw [if_pos rfl]
                  omega
                · rw [if_neg hx]
                  omega
              · intro x
                have hc := hcount (fun r =>
                  decide (r.comment = some x) && decide (r.like_type = LikeType.dislike))
                have hI := hcd x
                dsimp only at hc
                simp only [Like.delete, Like.delete_counters,
                  Article.decrement_like_count, Comment.decrement_like_count,
                  Comment.decrement_dislike_count, articleLikeRows,
                  commentLikeRows, commentDislikeRows, updFun_apply] at hI ⊢
                omega
          | dislike =>
              refine ⟨fun r hr => hnb r (hsub r hr), hndf,
                fun r hr => hlt r (hsub r hr), ?_, ?_, ?_⟩
              · intro x
                have hc := hcount (fun r =>
                  decide (r.article = some x) && decide (r.like_type = LikeType.like))
                have hI := hal x
                dsimp only at hc
                simp only [Like.delete, Like.delete_counters,
                  Article.decrement_like_count, Comment.decrement_like_count,
                  Comment.decrement_dislike_count, articleLikeRows,
                  commentLikeRows, commentDislikeRows, updFun_apply] at hI ⊢
                omega
              · intro x
                have hc := hcount (fun r =>
                  decide (r.comment = some x) && decide (r.like_type = LikeType.like))
                have hI := hcl x
                dsimp only at hc
                simp only [Like.delete, Like.delete_counters,
                  Article.decrement_like_count, Comment.decrement_like_count,
                  Comment.decrement_dislike_count, articleLikeRows,
                  commentLikeRows, commentDislikeRows, updFun_apply] at hI ⊢
                omega
              · intro x
                have hc := hcount (fun r =>
                  decide (r.comment = some x) && decide (r.like_type = LikeType.dislike))
                have hI := hcd x
                dsimp only at hc
                simp only [Like.delete, Like.delete_counters,
                  Article.decrement_like_count, Comment.decrement_like_count,
                  Comment.decrement_dislike_count, articleLikeRows,
                  commentLikeRows, commentDislikeRows, updFun_apply] at hI ⊢
                by_cases hx : x = c
                · subst hx
                  simp only [eq_self_iff_true, decide_True, Bool.and_self,
                    if_true] at hc
                  rw [if_pos rfl]
                  omega
                · rw [if_neg hx]
                  omega

theorem mem_replace {l : List Like} {k : Nat} {r' r : Like}
    (hr : r ∈ l.map (fun x => if x.pk = k then r' else x)) :
    r = r' ∨ r ∈ l := by
  rcases List.mem_map.mp hr with ⟨x, hx, hfx⟩
  by_cases hxe : x.pk = k
  · rw [if_pos hxe] at hfx
    exact Or.inl hfx.symm
  · rw [if_neg hxe] at hfx
    exact Or.inr (hfx ▸ hx)

theorem map_pk_replace (l : List Like) (k : Nat) (r' : Like)
    (hpk : r'.pk = k) :
    (l.map (fun x => if x.pk = k then r' else x)).map Like.pk
      = l.map Like.pk := by
  rw [List.map_map]
  induction l with
  | nil => rfl
  | cons hd tl ih =>
      simp only [List.map_cons, ih]
      by_cases hxe : hd.pk = k
      · simp only [Function.comp_apply, if_pos hxe]
        rw [hpk, hxe]
      · simp only [Function.comp_apply, if_neg hxe]

theorem countP_replace_key (l : List Like) (ex r' : Like) (k : Nat)
    (hpk1 : ex.pk = k)
    (hN : (l.map Like.pk).Nodup) (hm : ex ∈ l) (p : Like → Bool) :
    (l.map (fun x => if x.pk = k then r' else x)).countP p
      + (if p ex then 1 else 0)
      = l.countP p + (if p r' then 1 else 0) := by
  induction l with
  | nil => cases hm
  | cons h tl ih =>
      simp only [List.map_cons, List.nodup_cons] at hN
      by_cases hhe : h = ex
      · subst hhe
        have hmap : tl.map (fun x => if x.pk = k then r' else x) = tl := by
          apply map_eq_self_of_mem
          intro x hx
          rw [if_neg]
          intro he
          exact hN.1 ((hpk1 ▸ he : x.pk = h.pk) ▸ List.mem_map_of_mem Like.pk hx)
        rw [List.map_cons, if_pos hpk1, hmap, List.countP_cons, List.countP_cons]
        omega
      · have hmtl : ex ∈ tl := by
          rcases List.mem_cons.mp hm with hm1 | hm1
          · exact absurd hm1.symm hhe
          · exact hm1
        have hne : h.pk ≠ k := by
          intro he
          exact hN.1 ((hpk1.symm ▸ he : h.pk = ex.pk) ▸
            List.mem_map_of_mem Like.pk hmtl)
        rw [List.map_cons, if_neg hne, List.countP_cons, List.countP_cons]
        have := ih hN.2 hmtl
        omega


theorem consistent_changed_article (st : BlogState) (h : Consistent st)
    (epk eu a : Nat) (ec : Option Nat) (elt : LikeType) (oc : Option Nat)
    (lt : LikeType)
    (hm : (⟨epk, eu, some a, ec, elt⟩ : Like) ∈ st.likes) (hne : elt ≠ lt) :
    Consistent (LikeService.update_counters_svc (some a) oc (some elt) (some lt)
      (Like.update_counters ⟨epk, eu, some a, ec, lt⟩
        { st with likes := (st.likes.map
            (fun x => if x.pk = epk then ⟨epk, eu, some a, ec, lt⟩ else x)) })) := by
  obtain ⟨hnb, hnd, hlt, hal, hcl, hcd⟩ := h
  have hnbex := hnb _ hm
  cases ec with
  | some c => simp at hnbex
  | none =>
  have hrep := fun p => countP_replace_key st.likes ⟨epk, eu, some a, none, elt⟩
    ⟨epk, eu, some a, none, lt⟩ epk rfl hnd hm p
  have hmappk := map_pk_replace st.likes epk ⟨epk, eu, some a, none, lt⟩ rfl
  have hnb2 : ∀ r ∈ st.likes.map
      (fun x => if x.pk = epk then (⟨epk, eu, some a, none, lt⟩ : Like) else x),
      ¬(r.article.isSome = true ∧ r.comment.isSome = true) := by
    intro r hr
    rcases mem_replace hr with h1 | h1
    · subst h1
      simp
    · exact hnb r h1
  have hlt2 : ∀ r ∈ st.likes.map
      (fun x => if x.pk = epk then (⟨epk, eu, some a, none, lt⟩ : Like) else x),
      r.pk < st.nextPk := by
    intro r hr
    rcases mem_replace hr with h1 | h1
    · subst h1
      exact hlt ⟨epk, eu, some a, none, elt⟩ hm
    · exact hlt r h1
  have hnd2 : ((st.likes.map
      (fun x => if x.pk = epk then (⟨epk, eu, some a, none, lt⟩ : Like) else x)).map
      Like.pk).Nodup := by
    rw [hmappk]
    exact hnd
  cases elt with
  | like =>
      cases lt with
      | like => exact absurd rfl hne
      | dislike =>
          refine ⟨hnb2, hnd2, hlt2, ?_, ?_, ?_⟩
          · intro x
            have hc := hrep (fun r =>
              decide (r.article = some x) && decide (r.like_type = LikeType.like))
            have hI := hal x
            dsimp only at hc
            simp only [LikeService.update_counters_svc, Like.update_counters,
              Article.decrement_like_count, Article.increment_like_count,
              Comment.decrement_like_count, Comment.increment_like_count,
              Comment.decrement_dislike_count, Comment.increment_dislike_count,
              articleLikeRows, commentLikeRows, commentDislikeRows,
              updFun_apply, Option.some.injEq, eq_self_iff_true, and_self,
              and_true, true_and, and_false, false_and, reduceCtorEq,
              if_true, if_false] at hI ⊢
            by_cases hx : x = a
            · subst hx
              simp only [eq_self_iff_true, decide_True, Bool.and_self,
                Bool.and_true, true_and, reduceCtorEq, decide_False,
                Bool.false_and, Bool.and_false, if_true, if_false,
                Nat.add_zero, Nat.zero_add] at hc
              simp only [eq_self_iff_true, if_true]
              omega
            · have hxa : ((some a : Option Nat) = some x) = False := by
                simp [Ne.symm hx]
              simp only [hxa, decide_False, Bool.false_and, Bool.false_eq_true, if_false,
                Nat.add_zero, Nat.zero_add] at hc
              simp only [if_neg hx]
              omega
          · intro x
            have hc := hrep (fun r =>
              decide (r.comment = some x) && decide (r.like_type = LikeType.like))
            have hI := hcl x
            dsimp only at hc
            simp only [LikeService.update_counters_svc, Like.update_counters,
              Article.decrement_like_count, Article.increment_like_count,
              Comment.decrement_like_count, Comment.increment_like_count,
              Comment.decrement_dislike_count, Comment.increment_dislike_count,
              articleLikeRows, commentLikeRows, commentDislikeRows,
              updFun_apply, Option.some.injEq, eq_self_iff_true, and_self,
              and_true, true_and, and_false, false_and, reduceCtorEq,
              if_true, if_false] at hI ⊢
            simp only [reduceCtorEq, decide_False, Bool.false_and, Bool.false_eq_true,
              Bool.and_false, if_false, Nat.add_zero, Nat.zero_add] at hc
            omega
          · intro x
            have hc := hrep (fun r =>
              decide (r.comment = some x) && decide (r.like_type = LikeType.dislike))
            have hI := hcd x
            dsimp only at hc
            simp only [LikeService.update_counters_svc, Like.update_counters,
              Article.decrement_like_count, Article.increment_like_count,
              Comment.decrement_like_count, Comment.increment_like_count,
              Comment.decrement_dislike_count, Comment.increment_dislike_count,
              articleLikeRows, commentLikeRows, commentDislikeRows,
              updFun_apply, Option.some.injEq, eq_self_iff_true, and_self,
              and_true, true_and, and_false, false_and, reduceCtorEq,
              if_true, if_false] at hI ⊢
            simp only [reduceCtorEq, decide_False, Bool.false_and, Bool.false_eq_true,
              Bool.and_false, if_false, Nat.add_zero, Nat.zero_add] at hc
            omega
  | dislike =>
      cases lt with
      | dislike => exact absurd rfl hne
      | like =>
          refine ⟨hnb2, hnd2, hlt2, ?_, ?_, ?_⟩
          · intro x
            have hc := hrep (fun r =>
              decide (r.article = some x) && decide (r.like_type = LikeType.like))
            have hI := hal x
            dsimp only at hc
            simp only [LikeService.update_counters_svc, Like.update_counters,
              Article.decrement_like_count, Article.increment_like_count,
              Comment.decrement_like_count, Comment.increment_like_count,
              Comment.decrement_dislike_count, Comment.increment_dislike_count,
              articleLikeRows, commentLikeRows, commentDislikeRows,
              updFun_apply, Option.some.injEq, eq_self_iff_true, and_self,
              and_true, true_and, and_false, false_and, reduceCtorEq,
              if_true, if_false] at hI ⊢
            by_cases hx : x = a
            · subst hx
              simp only [eq_self_iff_true, decide_True, Bool.and_self,
                Bool.and_true, true_and, reduceCtorEq, decide_False,
                Bool.false_and, Bool.and_false, if_true, if_false,
                Nat.add_zero, Nat.zero_add] at hc
              simp only [eq_self_iff_true, if_true]
              omega
            · have hxa : ((some a : Option Nat) = some x) = False := by
                simp [Ne.symm hx]
              simp only [hxa, decide_False, Bool.false_and, Bool.false_eq_true, if_false,
                Nat.add_zero, Nat.zero_add] at hc
              simp only [if_neg hx]
              omega
          · intro x
            have hc := hrep (fun r =>
              decide (r.comment = some x) && decide (r.like_type = LikeType.like))
            have hI := hcl x
            dsimp only at hc
            simp only [LikeService.update_counters_svc, Like.update_counters,
              Article.decrement_like_count, Article.increment_like_count,
              Comment.decrement_like_count, Comment.increment_like_count,
              Comment.decrement_dislike_count, Comment.increment_dislike_count,
              articleLikeRows, commentLikeRows, commentDislikeRows,
              updFun_apply, Option.some.injEq, eq_self_iff_true, and_self,
              and_true, true_and, and_false, false_and, reduceCtorEq,
              if_true, if_false] at hI ⊢
            simp only [reduceCtorEq, decide_False, Bool.false_and, Bool.false_eq_true,
              Bool.and_false, if_false, Nat.add_zero, Nat.zero_add] at hc
            omega
          · intro x
            have hc := hrep (fun r =>
              decide (r.comment = some x) && decide (r.like_type = LikeType.dislike))
            have hI := hcd x
            dsimp only at hc
            simp only [LikeService.update_counters_svc, Like.update_counters,
              Article.decrement_like_count, Article.increment_like_count,
              Comment.decrement_like_count, Comment.increment_like_count,
              Comment.decrement_dislike_count, Comment.increment_dislike_count,
              articleLikeRows, commentLikeRows, commentDislikeRows,
              updFun_apply, Option.some.injEq, eq_self_iff_true, and_self,
              and_true, true_and, and_false, false_and, reduceCtorEq,
              if_true, if_false] at hI ⊢
            simp only [reduceCtorEq, decide_False, Bool.false_and, Bool.false_eq_true,
              Bool.and_false, if_false, Nat.add_zero, Nat.zero_add] at hc
            omega


theorem consistent_changed_comment (st : BlogState) (h : Consistent st)
    (epk eu c : Nat) (ea : Option Nat) (elt : LikeType) (lt : LikeType)
    (hm : (⟨epk, eu, ea, some c, elt⟩ : Like) ∈ st.likes) (hne : elt ≠ lt) :
    Consistent (LikeService.update_counters_svc none (some c) (some elt) (some lt)
      (Like.update_counters ⟨epk, eu, ea, some c, lt⟩
        { st with likes := (st.likes.map
            (fun x => if x.pk = epk then ⟨epk, eu, ea, some c, lt⟩ else x)) })) := by
  obtain ⟨hnb, hnd, hlt, hal, hcl, hcd⟩ := h
  have hnbex := hnb _ hm
  cases ea with
  | some a => simp at hnbex
  | none =>
  have hrep := fun p => countP_replace_key st.likes ⟨epk, eu, none, some c, elt⟩
    ⟨epk, eu, none, some c, lt⟩ epk rfl hnd hm p
  have hmappk := map_pk_replace st.likes epk ⟨epk, eu, none, some c, lt⟩ rfl
  have hnb2 : ∀ r ∈ st.likes.map
      (fun x => if x.pk = epk then (⟨epk, eu, none, some c, lt⟩ : Like) else x),
      ¬(r.article.isSome = true ∧ r.comment.isSome = true) := by
    intro r hr
    rcases mem_replace hr with h1 | h1
    · subst h1
      simp
    · exact hnb r h1
  have hlt2 : ∀ r ∈ st.likes.map
      (fun x => if x.pk = epk then (⟨epk, eu, none, some c, lt⟩ : Like) else x),
      r.pk < st.nextPk := by
    intro r hr
    rcases mem_replace hr with h1 | h1
    · subst h1
      exact hlt ⟨epk, eu, none, some c, elt⟩ hm
    · exact hlt r h1
  have hnd2 : ((st.likes.map
      (fun x => if x.pk = epk then (⟨epk, eu, none, some c, lt⟩ : Like) else x)).map
      Like.pk).Nodup := by
    rw [hmappk]
    exact hnd
  cases elt with
  | like =>
      cases lt with
      | like => exact absurd rfl hne
      | dislike =>
          refine ⟨hnb2, hnd2, hlt2, ?_, ?_, ?_⟩
          · intro x
            have hc := hrep (fun r =>
              decide (r.article = some x) && decide (r.like_type = LikeType.like))
            have hI := hal x
            dsimp only at hc
            simp only [LikeService.update_counters_svc, Like.update_counters,
              Article.decrement_like_count, Article.increment_like_count,
              Comment.decrement_like_count, Comment.increment_like_count,
              Comment.decrement_dislike_count, Comment.increment_dislike_count,
              articleLikeRows, commentLikeRows, commentDislikeRows,
              updFun_apply, Option.some.injEq, eq_self_iff_true, and_self,
              and_true, true_and, and_false, false_and, reduceCtorEq,
              if_true, if_false] at hI ⊢
            simp only [reduceCtorEq, decide_False, Bool.false_and, Bool.false_eq_true,
              Bool.and_false, if_false, Nat.add_zero, Nat.zero_add] at hc
            omega
          · intro x
            have hc := hrep (fun r =>
              decide (r.comment = some x) && decide (r.like_type = LikeType.like))
            have hI := hcl x
            dsimp only at hc
            simp only [LikeService.update_counters_svc, Like.update_counters,
              Article.decrement_like_count, Article.increment_like_count,
              Comment.decrement_like_count, Comment.increment_like_count,
              Comment.decrement_dislike_count, Comment.increment_dislike_count,
              articleLikeRows, commentLikeRows, commentDislikeRows,
              updFun_apply, Option.some.injEq, eq_self_iff_true, and_self,
              and_true, true_and, and_false, false_and, reduceCtorEq,
              if_true, if_false] at hI ⊢
            by_cases hx : x = c
            · subst hx
              simp only [eq_self_iff_true, decide_True, Bool.and_self,
                Bool.and_true, true_and, reduceCtorEq, decide_False,
                Bool.false_and, Bool.and_false, if_true, if_false,
                Nat.add_zero, Nat.zero_add] at hc
              simp only [eq_self_iff_true, if_true]
              omega
            · have hxa : ((some c : Option Nat) = some x) = False := by
                simp [Ne.symm hx]
              simp only [hxa, decide_False, Bool.false_and, Bool.false_eq_true, if_false,
                Nat.add_zero, Nat.zero_add] at hc
              simp only [if_neg hx]
              omega
          · intro x
            have hc := hrep (fun r =>
              decide (r.comment = some x) && decide (r.like_type = LikeType.dislike))
            have hI := hcd x
            dsimp only at hc
            simp only [LikeService.update_counters_svc, Like.update_counters,
              Article.decrement_like_count, Article.increment_like_count,
              Comment.decrement_like_count, Comment.increment_like_count,
              Comment.decrement_dislike_count, Comment.increment_dislike_count,
              articleLikeRows, commentLikeRows, commentDislikeRows,
              updFun_apply, Option.some.injEq, eq_self_iff_true, and_self,
              and_true, true_and, and_false, false_and, reduceCtorEq,
              if_true, if_false] at hI ⊢
            by_cases hx : x = c
            · subst hx
              simp only [eq_self_iff_true, decide_True, Bool.and_self,
                Bool.and_true, true_and, reduceCtorEq, decide_False,
                Bool.false_and, Bool.and_false, if_true, if_false,
                Nat.add_zero, Nat.zero_add] at hc
              simp only [eq_self_iff_true, if_true]
              omega
            · have hxa : ((some c : Option Nat) = some x) = False := by
                simp [Ne.symm hx]
              simp only [hxa, decide_False, Bool.false_and, Bool.false_eq_true, if_false,
                Nat.add_zero, Nat.zero_add] at hc
              simp only [if_neg hx]
              omega
  | dislike =>
      cases lt with
      | dislike => exact absurd rfl hne
      | like =>
          refine ⟨hnb2, hnd2, hlt2, ?_, ?_, ?_⟩
          · intro x
            have hc := hrep (fun r =>
              decide (r.article = some x) && decide (r.like_type = LikeType.like))
            have hI := hal x
            dsimp only at hc
            simp only [LikeService.update_counters_svc, Like.update_counters,
              Article.decrement_like_count, Article.increment_like_count,
              Comment.decrement_like_count, Comment.increment_like_count,
              Comment.decrement_dislike_count, Comment.increment_dislike_count,
              articleLikeRows, commentLikeRows, commentDislikeRows,
              updFun_apply, Option.some.injEq, eq_self_iff_true, and_self,
              and_true, true_and, and_false, false_and, reduceCtorEq,
              if_true, if_false] at hI ⊢
            simp only [reduceCtorEq, decide_False, Bool.false_and, Bool.false_eq_true,
              Bool.and_false, if_false, Nat.add_zero, Nat.zero_add] at hc
            omega
          · intro x
            have hc := hrep (fun r =>
              decide (r.comment = some x) && decide (r.like_type = LikeType.like))
            have hI := hcl x
            dsimp only at hc
            simp only [LikeService.update_counters_svc, Like.update_counters,
              Article.decrement_like_count, Article.increment_like_count,
              Comment.decrement_like_count, Comment.increment_like_count,
              Comment.decrement_dislike_count, Comment.increment_dislike_count,
              articleLikeRows, commentLikeRows, commentDislikeRows,
              updFun_apply, Option.some.injEq, eq_self_iff_true, and_self,
              and_true, true_and, and_false, false_and, reduceCtorEq,
              if_true, if_false] at hI ⊢
            by_cases hx : x = c
            · subst hx
              simp only [eq_self_iff_true, decide_True, Bool.and_self,
                Bool.and_true, true_and, reduceCtorEq, decide_False,
                Bool.false_and, Bool.and_false, if_true, if_false,
                Nat.add_zero, Nat.zero_add] at hc
              simp only [eq_self_iff_true, if_true]
              omega
            · have hxa : ((some c : Option Nat) = some x) = False := by
                simp [Ne.symm hx]
              simp only [hxa, decide_False, Bool.false_and, Bool.false_eq_true, if_false,
                Nat.add_zero, Nat.zero_add] at hc
              simp only [if_neg hx]
              omega
          · intro x
            have hc := hrep (fun r =>
              decide (r.comment = some x) && decide (r.like_type = LikeType.dislike))
            have hI := hcd x
            dsimp only at hc
            simp only [LikeService.update_counters_svc, Like.update_counters,
              Article.decrement_like_count, Article.increment_like_count,
              Comment.decrement_like_count, Comment.increment_like_count,
              Comment.decrement_dislike_count, Comment.increment_dislike_count,
              articleLikeRows, commentLikeRows, commentDislikeRows,
              updFun_apply, Option.some.injEq, eq_self_iff_true, and_self,
              and_true, true_and, and_false, false_and, reduceCtorEq,
              if_true, if_false] at hI ⊢
            by_cases hx : x = c
            · subst hx
              simp only [eq_self_iff_true, decide_True, Bool.and_self,
                Bool.and_true, true_and, reduceCtorEq, decide_False,
                Bool.false_and, Bool.and_false, if_true, if_false,
                Nat.add_zero, Nat.zero_add] at hc
              simp only [eq_self_iff_true, if_true]
              omega
            · have hxa : ((some c : Option Nat) = some x) = False := by
                simp [Ne.symm hx]
              simp only [hxa, decide_False, Bool.false_and, Bool.false_eq_true, if_false,
                Nat.add_zero, Nat.zero_add] at hc
              simp only [if_neg hx]
              omega


theorem consistent_added_article (st : BlogState) (h : Consistent st)
    (u tgt : Nat) (lt : LikeType) :
    Consistent (LikeService.update_counters_svc (some tgt) none
      none (some lt)
      (Like.update_counters ⟨st.nextPk, u, some tgt, none, lt⟩
        { st with
          likes := (st.likes ++ [⟨st.nextPk, u, some tgt, none, lt⟩]),
          nextPk := st.nextPk + 1 })) := by
  obtain ⟨hnb, hnd, hlt, hal, hcl, hcd⟩ := h
  have happ := fun p => countP_append_one st.likes ⟨st.nextPk, u, some tgt, none, lt⟩ p
  have hnb2 : ∀ r ∈ st.likes ++ [(⟨st.nextPk, u, some tgt, none, lt⟩ : Like)],
      ¬(r.article.isSome = true ∧ r.comment.isSome = true) := by
    intro r hr
    rcases List.mem_append.mp hr with h1 | h1
    · exact hnb r h1
    · rcases List.mem_singleton.mp h1 with rfl
      simp
  have hlt2 : ∀ r ∈ st.likes ++ [(⟨st.nextPk, u, some tgt, none, lt⟩ : Like)], r.pk < st.nextPk + 1 := by
    intro r hr
    rcases List.mem_append.mp hr with h1 | h1
    · exact Nat.lt_succ_of_lt (hlt r h1)
    · rcases List.mem_singleton.mp h1 with rfl
      exact Nat.lt_succ_self _
  have hnd2 : (((st.likes ++ [(⟨st.nextPk, u, some tgt, none, lt⟩ : Like)])).map Like.pk).Nodup := by
    rw [List.map_append]
    refine List.Nodup.append hnd (List.nodup_singleton _) ?_
    intro y hy1 hy2
    rcases List.mem_map.mp hy1 with ⟨rr, hrr, hpk⟩
    simp only [List.map_cons, List.map_nil, List.mem_singleton] at hy2
    have := hlt rr hrr
    omega
  cases lt with
  | like =>
          refine ⟨hnb2, hnd2, hlt2, ?_, ?_, ?_⟩
          · intro x
            have hc := happ (fun r =>
              decide (r.article = some x) && decide (r.like_type = LikeType.like))
            have hI := hal x
            dsimp only at hc
            simp only [LikeService.update_counters_svc, Like.update_counters,
              Article.decrement_like_count, Article.increment_like_count,
              Comment.decrement_like_count, Comment.increment_like_count,
              Comment.decrement_dislike_count, Comment.increment_dislike_count,
              articleLikeRows, commentLikeRows, commentDislikeRows,
              updFun_apply, Option.some.injEq, eq_self_iff_true, and_self,
              and_true, true_and, and_false, false_and, reduceCtorEq,
              if_true, if_false] at hI ⊢
            by_cases hx : x = tgt
            · subst hx
              simp only [eq_self_iff_true, decide_True, Bool.and_self,
                Bool.and_true, true_and, reduceCtorEq, decide_False,
                Bool.false_and, Bool.and_false, if_true, if_false,
                Nat.add_zero, Nat.zero_add] at hc
              simp only [eq_self_iff_true, if_true]
              omega
            · have hxa : ((some tgt : Option Nat) = some x) = False := by
                simp [Ne.symm hx]
              simp only [hxa, decide_False, Bool.false_and, Bool.false_eq_true, if_false,
                Nat.add_zero, Nat.zero_add] at hc
              simp only [if_neg hx]
              omega
          · intro x
            have hc := happ (fun r =>
              decide (r.comment = some x) && decide (r.like_type = LikeType.like))
            have hI := hcl x
            dsimp only at hc
            simp only [LikeService.update_counters_svc, Like.update_counters,
              Article.decrement_like_count, Article.increment_like_count,
              Comment.decrement_like_count, Comment.increment_like_count,
              Comment.decrement_dislike_count, Comment.increment_dislike_count,
              articleLikeRows, commentLikeRows, commentDislikeRows,
              updFun_apply, Option.some.injEq, eq_self_iff_true, and_self,
              and_true, true_and, and_false, false_and, reduceCtorEq,
              if_true, if_false] at hI ⊢
            simp only [reduceCtorEq, decide_False, Bool.false_and, Bool.false_eq_true,
              Bool.and_false, if_false, Nat.add_zero, Nat.zero_add] at hc
            omega
          · intro x
            have hc := happ (fun r =>
              decide (r.comment = some x) && decide (r.like_type = LikeType.dislike))
            have hI := hcd x
            dsimp only at hc
            simp only [LikeService.update_counters_svc, Like.update_counters,
              Article.decrement_like_count, Article.increment_like_count,
              Comment.decrement_like_count, Comment.increment_like_count,
              Comment.decrement_dislike_count, Comment.increment_dislike_count,
              articleLikeRows, commentLikeRows, commentDislikeRows,
              updFun_apply, Option.some.injEq, eq_self_iff_true, and_self,
              and_true, true_and, and_false, false_and, reduceCtorEq,
              if_true, if_false] at hI ⊢
            simp only [reduceCtorEq, decide_False, Bool.false_and, Bool.false_eq_true,
              Bool.and_false, if_false, Nat.add_zero, Nat.zero_add] at hc
            omega
  | dislike =>
          refine ⟨hnb2, hnd2, hlt2, ?_, ?_, ?_⟩
          · intro x
            have hc := happ (fun r =>
              decide (r.article = some x) && decide (r.like_type = LikeType.like))
            have hI := hal x
            dsimp only at hc
            simp only [LikeService.update_counters_svc, Like.update_counters,
              Article.decrement_like_count, Article.increment_like_count,
              Comment.decrement_like_count, Comment.increment_like_count,
              Comment.decrement_dislike_count, Comment.increment_dislike_count,
              articleLikeRows, commentLikeRows, commentDislikeRows,
              updFun_apply, Option.some.injEq, eq_self_iff_true, and_self,
              and_true, true_and, and_false, false_and, reduceCtorEq,
              if_true, if_false] at hI ⊢
            simp only [reduceCtorEq, decide_False, Bool.false_and, Bool.false_eq_true,
              Bool.and_false, if_false, Nat.add_zero, Nat.zero_add] at hc
            omega
          · intro x
            have hc := happ (fun r =>
              decide (r.comment = some x) && decide (r.like_type = LikeType.like))
            have hI := hcl x
            dsimp only at hc
            simp only [LikeService.update_counters_svc, Like.update_counters,
              Article.decrement_like_count, Article.increment_like_count,
              Comment.decrement_like_count, Comment.increment_like_count,
              Comment.decrement_dislike_count, Comment.increment_dislike_count,
              articleLikeRows, commentLikeRows, commentDislikeRows,
              updFun_apply, Option.some.injEq, eq_self_iff_true, and_self,
              and_true, true_and, and_false, false_and, reduceCtorEq,
              if_true, if_false] at hI ⊢
            simp only [reduceCtorEq, decide_False, Bool.false_and, Bool.false_eq_true,
              Bool.and_false, if_false, Nat.add_zero, Nat.zero_add] at hc
            omega
          · intro x
            have hc := happ (fun r =>
              decide (r.comment = some x) && decide (r.like_type = LikeType.dislike))
            have hI := hcd x
            dsimp only at hc
            simp only [LikeService.update_counters_svc, Like.update_counters,
              Article.decrement_like_count, Article.increment_like_count,
              Comment.decrement_like_count, Comment.increment_like_count,
              Comment.decrement_dislike_count, Comment.increment_dislike_count,
              articleLikeRows, commentLikeRows, commentDislikeRows,
              updFun_apply, Option.some.injEq, eq_self_iff_true, and_self,
              and_true, true_and, and_false, false_and, reduceCtorEq,
              if_true, if_false] at hI ⊢
            simp only [reduceCtorEq, decide_False, Bool.false_and, Bool.false_eq_true,
              Bool.and_false, if_false, Nat.add_zero, Nat.zero_add] at hc
            omega

theorem consistent_added_comment (st : BlogState) (h : Consistent st)
    (u tgt : Nat) (lt : LikeType) :
    Consistent (LikeService.update_counters_svc none (some tgt)
      none (some lt)
      (Like.update_counters ⟨st.nextPk, u, none, some tgt, lt⟩
        { st with
          likes := (st.likes ++ [⟨st.nextPk, u, none, some tgt, lt⟩]),
          nextPk := st.nextPk + 1 })) := by
  obtain ⟨hnb, hnd, hlt, hal, hcl, hcd⟩ := h
  have happ := fun p => countP_append_one st.likes ⟨st.nextPk, u, none, some tgt, lt⟩ p
  have hnb2 : ∀ r ∈ st.likes ++ [(⟨st.nextPk, u, none, some tgt, lt⟩ : Like)],
      ¬(r.article.isSome = true ∧ r.comment.isSome = true) := by
    intro r hr
    rcases List.mem_append.mp hr with h1 | h1
    · exact hnb r h1
    · rcases List.mem_singleton.mp h1 with rfl
      simp
  have hlt2 : ∀ r ∈ st.likes ++ [(⟨st.nextPk, u, none, some tgt, lt⟩ : Like)], r.pk < st.nextPk + 1 := by
    intro r hr
    rcases List.mem_append.mp hr with h1 | h1
    · exact Nat.lt_succ_of_lt (hlt r h1)
    · rcases List.mem_singleton.mp h1 with rfl
      exact Nat.lt_succ_self _
  have hnd2 : (((st.likes ++ [(⟨st.nextPk, u, none, some tgt, lt⟩ : Like)])).map Like.pk).Nodup := by
    rw [List.map_append]
    refine List.Nodup.append hnd (List.nodup_singleton _) ?_
    intro y hy1 hy2
    rcases List.mem_map.mp hy1 with ⟨rr, hrr, hpk⟩
    simp only [List.map_cons, List.map_nil, List.mem_singleton] at hy2
    have := hlt rr hrr
    omega
  cases lt with
  | like =>
          refine ⟨hnb2, hnd2, hlt2, ?_, ?_, ?_⟩
          · intro x
            have hc := happ (fun r =>
              decide (r.article = some x) && decide (r.like_type = LikeType.like))
            have hI := hal x
            dsimp only at hc
            simp only [LikeService.update_counters_svc, Like.update_counters,
              Article.decrement_like_count, Article.increment_like_count,
              Comment.decrement_like_count, Comment.increment_like_count,
              Comment.decrement_dislike_count, Comment.increment_dislike_count,
              articleLikeRows, commentLikeRows, commentDislikeRows,
              updFun_apply, Option.some.injEq, eq_self_iff_true, and_self,
              and_true, true_and, and_false, false_and, reduceCtorEq,
              if_true, if_false] at hI ⊢
            simp only [reduceCtorEq, decide_False, Bool.false_and, Bool.false_eq_true,
              Bool.and_false, if_false, Nat.add_zero, Nat.zero_add] at hc
            omega
          · intro x
            have hc := happ (fun r =>
              decide (r.comment = some x) && decide (r.like_type = LikeType.like))
            have hI := hcl x
            dsimp only at hc
            simp only [LikeService.update_counters_svc, Like.update_counters,
              Article.decrement_like_count, Article.increment_like_count,
              Comment.decrement_like_count, Comment.increment_like_count,
              Comment.decrement_dislike_count, Comment.increment_dislike_count,
              articleLikeRows, commentLikeRows, commentDislikeRows,
              updFun_apply, Option.some.injEq, eq_self_iff_true, and_self,
              and_true, true_and, and_false, false_and, reduceCtorEq,
              if_true, if_false] at hI ⊢
            by_cases hx : x = tgt
            · subst hx
              simp only [eq_self_iff_true, decide_True, Bool.and_self,
                Bool.and_true, true_and, reduceCtorEq, decide_False,
                Bool.false_and, Bool.and_false, if_true, if_false,
                Nat.add_zero, Nat.zero_add] at hc
              simp only [eq_self_iff_true, if_true]
              omega
            · have hxa : ((some tgt : Option Nat) = some x) = False := by
                simp [Ne.symm hx]
              simp only [hxa, decide_False, Bool.false_and, Bool.false_eq_true, if_false,
                Nat.add_zero, Nat.zero_add] at hc
              simp only [if_neg hx]
              omega
          · intro x
            have hc := happ (fun r =>
              decide (r.comment = some x) && decide (r.like_type = LikeType.dislike))
            have hI := hcd x
            dsimp only at hc
            simp only [LikeService.update_counters_svc, Like.update_counters,
              Article.decrement_like_count, Article.increment_like_count,
              Comment.decrement_like_count, Comment.increment_like_count,
              Comment.decrement_dislike_count, Comment.increment_dislike_count,
              articleLikeRows, commentLikeRows, commentDislikeRows,
              updFun_apply, Option.some.injEq, eq_self_iff_true, and_self,
              and_true, true_and, and_false, false_and, reduceCtorEq,
              if_true, if_false] at hI ⊢
            simp only [reduceCtorEq, decide_False, Bool.false_and, Bool.false_eq_true,
              Bool.and_false, if_false, Nat.add_zero, Nat.zero_add] at hc
            omega
  | dislike =>
          refine ⟨hnb2, hnd2, hlt2, ?_, ?_, ?_⟩
          · intro x
            have hc := happ (fun r =>
              decide (r.article = some x) && decide (r.like_type = LikeType.like))
            have hI := hal x
            dsimp only at hc
            simp only [LikeService.update_counters_svc, Like.update_counters,
              Article.decrement_like_count, Article.increment_like_count,
              Comment.decrement_like_count, Comment.increment_like_count,
              Comment.decrement_dislike_count, Comment.increment_dislike_count,
              articleLikeRows, commentLikeRows, commentDislikeRows,
              updFun_apply, Option.some.injEq, eq_self_iff_true, and_self,
              and_true, true_and, and_false, false_and, reduceCtorEq,
              if_true, if_false] at hI ⊢
            simp only [reduceCtorEq, decide_False, Bool.false_and, Bool.false_eq_true,
              Bool.and_false, if_false, Nat.add_zero, Nat.zero_add] at hc
            omega
          · intro x
            have hc := happ (fun r =>
              decide (r.comment = some x) && decide (r.like_type = LikeType.like))
            have hI := hcl x
            dsimp only at hc
            simp only [LikeService.update_counters_svc, Like.update_counters,
              Article.decrement_like_count, Article.increment_like_count,
              Comment.decrement_like_count, Comment.increment_like_count,
              Comment.decrement_dislike_count, Comment.increment_dislike_count,
              articleLikeRows, commentLikeRows, commentDislikeRows,
              updFun_apply, Option.some.injEq, eq_self_iff_true, and_self,
              and_true, true_and, and_false, false_and, reduceCtorEq,
              if_true, if_false] at hI ⊢
            simp only [reduceCtorEq, decide_False, Bool.false_and, Bool.false_eq_true,
              Bool.and_false, if_false, Nat.add_zero, Nat.zero_add] at hc
            omega
          · intro x
            have hc := happ (fun r =>
              decide (r.comment = some x) && decide (r.like_type = LikeType.dislike))
            have hI := hcd x
            dsimp only at hc
            simp only [LikeService.update_counters_svc, Like.update_counters,
              Article.decrement_like_count, Article.increment_like_count,
              Comment.decrement_like_count, Comment.increment_like_count,
              Comment.decrement_dislike_count, Comment.increment_dislike_count,
              articleLikeRows, commentLikeRows, commentDislikeRows,
              updFun_apply, Option.some.injEq, eq_self_iff_true, and_self,
              and_true, true_and, and_false, false_and, reduceCtorEq,
              if_true, if_false] at hI ⊢
            by_cases hx : x = tgt
            · subst hx
              simp only [eq_self_iff_true, decide_True, Bool.and_self,
                Bool.and_true, true_and, reduceCtorEq, decide_False,
                Bool.false_and, Bool.and_false, if_true, if_false,
                Nat.add_zero, Nat.zero_add] at hc
              simp only [eq_self_iff_true, if_true]
              omega
            · have hxa : ((some tgt : Option Nat) = some x) = False := by
                simp [Ne.symm hx]
              simp only [hxa, decide_False, Bool.false_and, Bool.false_eq_true, if_false,
                Nat.add_zero, Nat.zero_add] at hc
              simp only [if_neg hx]
              omega

theorem consistent_toggle_result (st : BlogState) (h : Consistent st)
    (u : Nat) (oa oc : Option Nat) (lt : LikeType) (act : LikeAction)
    (st' : BlogState)
    (ht : LikeService.toggle_like u oa oc lt st = some (act, st')) :
    Consistent st' := by
  unfold LikeService.toggle_like at ht
  cases oa with
  | some a =>
      cases oc with
      | some c => simp at ht
      | none =>
          rw [if_neg (by simp), if_neg (by simp)] at ht
          cases hfl : findLike st u (some a) none with
          | none =>
              rw [hfl] at ht
              dsimp only at ht
              unfold Like.save_new at ht
              rw [show Like.clean_ok (some a) none = true from rfl, hfl] at ht
              simp only [eq_self_iff_true, if_true, Option.some.injEq,
                Prod.mk.injEq] at ht
              obtain ⟨hact, hst⟩ := ht
              subst hst
              exact consistent_added_article st h u a lt
          | some ex =>
              rw [hfl] at ht
              dsimp only at ht
              have hfacts := findLike_some_article hfl
              by_cases heq : ex.like_type = lt
              · rw [if_pos heq] at ht
                simp only [Option.some.injEq, Prod.mk.injEq] at ht
                obtain ⟨hact, hst⟩ := ht
                subst hst
                exact consistent_delete st h ex hfacts.1
              · rw [if_neg heq] at ht
                have hecnone : ex.comment = none := by
                  have hne := h.notBoth ex hfacts.1
                  cases hec : ex.comment with
                  | none => rfl
                  | some cc =>
                      exfalso
                      apply hne
                      rw [hfacts.2.2, hec]
                      exact ⟨rfl, rfl⟩
                obtain ⟨epk, eu, ea, ec, elt⟩ := ex
                obtain ⟨hmem, huser, hart⟩ := hfacts
                dsimp only at hart hecnone heq
                subst hart
                subst hecnone
                unfold Like.save_existing at ht
                rw [show Like.clean_ok (some a) none = true from rfl] at ht
                simp only [eq_self_iff_true, if_true, Option.some.injEq,
                  Prod.mk.injEq] at ht
                obtain ⟨hact, hst⟩ := ht
                subst hst
                exact consistent_changed_article st h epk eu a none elt none lt
                  hmem heq
  | none =>
      cases oc with
      | none =>
          rw [if_pos ⟨rfl, rfl⟩] at ht
          cases ht
      | some c =>
          rw [if_neg (by simp), if_neg (by simp)] at ht
          cases hfl : findLike st u none (some c) with
          | none =>
              rw [hfl] at ht
              dsimp only at ht
              unfold Like.save_new at ht
              rw [show Like.clean_ok none (some c) = true from rfl, hfl] at ht
              simp only [eq_self_iff_true, if_true, Option.some.injEq,
                Prod.mk.injEq] at ht
              obtain ⟨hact, hst⟩ := ht
              subst hst
              exact consistent_added_comment st h u c lt
          | some ex =>
              rw [hfl] at ht
              dsimp only at ht
              have hfacts := findLike_some_comment hfl
              by_cases heq : ex.like_type = lt
              · rw [if_pos heq] at ht
                simp only [Option.some.injEq, Prod.mk.injEq] at ht
                obtain ⟨hact, hst⟩ := ht
                subst hst
                exact consistent_delete st h ex hfacts.1
              · rw [if_neg heq] at ht
                have heanone : ex.article = none := by
                  have hne := h.notBoth ex hfacts.1
                  cases hea : ex.article with
                  | none => rfl
                  | some aa =>
                      exfalso
                      apply hne
                      rw [hfacts.2.2, hea]
                      exact ⟨rfl, rfl⟩
                obtain ⟨epk, eu, ea, ec, elt⟩ := ex
                obtain ⟨hmem, huser, hcom⟩ := hfacts
                dsimp only at hcom heanone heq
                subst hcom
                subst heanone
                unfold Like.save_existing at ht
                rw [show Like.clean_ok none (some c) = true from rfl] at ht
                simp only [eq_self_iff_true, if_true, Option.some.injEq,
                  Prod.mk.injEq] at ht
                obtain ⟨hact, hst⟩ := ht
                subst hst
                exact consistent_changed_comment st h epk eu c none elt lt
                  hmem heq


theorem consistent_applyToggle (st : BlogState) (h : Consistent st)
    (q : ToggleReq) : Consistent (applyToggle st q) := by
  unfold applyToggle
  cases ht : LikeService.toggle_like q.user q.article q.comment q.lt st with
  | none => exact h
  | some p =>
      exact consistent_toggle_result st h q.user q.article q.comment q.lt
        p.1 p.2 ht

theorem consistent_runToggles (st : BlogState) (h : Consistent st)
    (qs : List ToggleReq) : Consistent (runToggles st qs) := by
  induction qs generalizing st with
  | nil => exact h
  | cons q qs ih => exact ih _ (consistent_applyToggle st h q)

theorem consistent_initialState : Consistent initialState := by
  refine ⟨?_, ?_, ?_, ?_, ?_, ?_⟩ <;>
    simp [initialState, articleLikeRows, commentLikeRows, commentDislikeRows]

/-- C8: starting from any consistent database state — counters at least the
row counts they denormalize, which holds in particular for every fresh
resource (zero counters, no reaction rows) — every sequence of `toggle_like`
calls leaves `like_count` and `dislike_count` non-negative, and since the
sequence is universally quantified this holds at every observed point.  (The
code in fact overcounts on the increments, see the C1 theorem, which only
widens the margin above zero.) -/
theorem toggle_sequences_keep_counters_nonneg (st : BlogState)
    (h : Consistent st) (qs : List ToggleReq) (a c : Nat) :
    0 ≤ (runToggles st qs).article_like_count a
    ∧ 0 ≤ (runToggles st qs).comment_like_count c
    ∧ 0 ≤ (runToggles st qs).comment_dislike_count c := by
  have hc := consistent_runToggles st h qs
  exact ⟨le_trans (Int.natCast_nonneg _) (hc.artLike a),
    le_trans (Int.natCast_nonneg _) (hc.comLike c),
    le_trans (Int.natCast_nonneg _) (hc.comDis c)⟩

theorem toggle_sequences_keep_counters_nonneg_witness :
    0 ≤ (runToggles initialState
        [⟨1, some 1, none, LikeType.like⟩, ⟨1, some 1, none, LikeType.like⟩]).article_like_count 1
    ∧ 0 ≤ (runToggles initialState
        [⟨1, some 1, none, LikeType.like⟩, ⟨1, some 1, none, LikeType.like⟩]).comment_like_count 5
    ∧ 0 ≤ (runToggles initialState
        [⟨1, some 1, none, LikeType.like⟩, ⟨1, some 1, none, LikeType.like⟩]).comment_dislike_count 5 :=
  toggle_sequences_keep_counters_nonneg initialState consistent_initialState
    [⟨1, some 1, none, LikeType.like⟩, ⟨1, some 1, none, LikeType.like⟩] 1 5


/-- The `Like.Meta` check constraint `like_must_have_target`
(`core/models.py` 1581-1584): `article IS NOT NULL OR comment IS NOT NULL`. -/
def like_must_have_target (r : Like) : Bool :=
  r.article.isSome || r.comment.isSome

/-- The full `Like.Meta.constraints` set (`core/models.py` 1570-1585) over a
table: the check constraint on every row, plus the two conditional
uniqueness constraints `unique_user_article_like` (on `(user, article)`
where `article` is non-null) and `unique_user_comment_like` (on
`(user, comment)` where `comment` is non-null). -/
def like_db_constraints_ok (rows : List Like) : Prop :=
  (∀ r ∈ rows, like_must_have_target r = true)
  ∧ rows.Pairwise (fun r1 r2 => r1.article.isSome = true →
      r2.article.isSome = true → ¬(r1.user = r2.user ∧ r1.article = r2.article))
  ∧ rows.Pairwise (fun r1 r2 => r1.comment.isSome = true →
      r2.comment.isSome = true → ¬(r1.user = r2.user ∧ r1.comment = r2.comment))

/-- One row of the `AuthToken` table: the fields used by
`core/authentication.py`, `api/auth/router.py` and `api/auth.py`
(`id`, `user`, `token`, `name`, `is_active`, `expires_at`, `last_used`).
Timestamps are seconds. -/
structure AuthToken where
  id : Nat
  user : Nat
  token : String
  name : String
  is_active : Bool
  expires_at : Nat
  last_used : Option Nat
deriving DecidableEq, Repr

/-- Modelled from the spec: `AuthToken.generate_token` — the `AuthToken`
model class itself is not under src/ (only its callers and tests are), and
the spec fixes the generated secret to the fixed required length, 256
characters, drawn from a cryptographically secure source, abstracted here as
a character source `rand`. -/
def AuthToken.generate_token (rand : Nat → Char) : String :=
  String.mk ((List.range 256).map rand)

/-- The token lookup shared by `TokenAuthentication.authenticate`
(`core/authentication.py` 37-41) and `TokenService.get_user_from_token`
(160-164): `AuthToken.objects.get(token=token, is_active=True,
expires_at__gt=now)` — note the query key is the raw `token` column.
Django's `get` succeeds only when exactly one row matches. -/
def getActiveToken (store : List AuthToken) (now : Nat) (token : String) :
    Option AuthToken :=
  match store.filter (fun r =>
      r.token == token && r.is_active && decide (now < r.expires_at)) with
  | [r] => some r
  | _ => none

/-- `TokenService.get_user_from_token` (`core/authentication.py` 156-167):
return the owning user of the matching valid token, else `None`. -/
def TokenService.get_user_from_token (store : List AuthToken) (now : Nat)
    (token : String) : Option Nat :=
  (getActiveToken store now token).map AuthToken.user

/-- `TokenAuthentication.authenticate` (`core/authentication.py` 22-80):
reject without any storage access when the credential is not exactly 256
characters; otherwise look the token up; on a hit, update `last_used` and
return the owning user together with the updated store; any miss is a
401-equivalent (`none`). -/
def TokenAuthentication.authenticate (store : List AuthToken) (now : Nat)
    (token : String) : Option (Nat × List AuthToken) :=
  if token.length ≠ 256 then none
  else
    match getActiveToken store now token with
    | some r =>
        some (r.user, store.map (fun x =>
          if x.id = r.id then { x with last_used := some now } else x))
    | none => none

/-- `TokenService.create_user_token` (`core/authentication.py` 95-122):
generate a token, persist a row holding the user, the raw token, the label
and a 30-day expiry, and return the raw token.  The surrogate id is the next
free row index. -/
def TokenService.create_user_token (store : List AuthToken) (user : Nat)
    (token_name : String) (now : Nat) (rand : Nat → Char) :
    String × List AuthToken :=
  (AuthToken.generate_token rand,
    store ++ [⟨store.length, user, AuthToken.generate_token rand, token_name,
      true, now + 30 * 86400, none⟩])

/-- `TokenService.revoke_user_tokens` (`core/authentication.py` 124-140):
`filter(user=user, is_active=True)`, count, then `.update(is_active=False)`;
returns the updated store and the count. -/
def TokenService.revoke_user_tokens (store : List AuthToken) (user : Nat) :
    List AuthToken × Nat :=
  (store.map (fun r =>
      if decide (r.user = user) && r.is_active then { r with is_active := false }
      else r),
    (store.filter (fun r => decide (r.user = user) && r.is_active)).length)

/-- The token fields of the `register`/`login` issuance response
(`api/auth/router.py` 73-82 and 164-173): the raw token and
`token_length = len(token)`. -/
structure TokenIssueResponse where
  token : String
  token_length : Nat
deriving DecidableEq, Repr

/-- The token-issuance part of `register` (`api/auth/router.py` 27-119):
issue via `TokenService.create_user_token` and echo the token plus its
length in the response. -/
def register (store : List AuthToken) (user : Nat) (now : Nat)
    (rand : Nat → Char) : TokenIssueResponse × List AuthToken :=
  match TokenService.create_user_token store user "Registration token" now rand with
  | (token, store1) => (⟨token, token.length⟩, store1)

/-- `logout_user` (`api/auth.py` 91-105, same logic as `logout` in
`api/auth/router.py` 176-201): if a bearer token was presented, fetch the
active row for it, deactivate it when found, and silently swallow
`DoesNotExist`; the success message is returned in every handled case.
`none` models Django's unhandled `MultipleObjectsReturned`. -/
def logout_user (store : List AuthToken) (token : String) :
    Option (List AuthToken × String) :=
  if token ≠ "" then
    match store.filter (fun r => r.token == token && r.is_active) with
    | [] => some (store, "Logged out successfully")
    | [r] =>
        some (store.map (fun x =>
          if x.id = r.id then { x with is_active := false } else x),
          "Logged out successfully")
    | _ => none
  else some (store, "Logged out successfully")

/-- `User.UserRole` (`core/models.py` 80-85). -/
inductive UserRole where
  | admin
  | editor
  | author
  | user
  | guest
deriving DecidableEq, Repr

/-- The slice of the `User` model (`core/models.py` 75-373) that the
permission predicates consult: the primary key, the Django superuser/staff
flags, the role column, and the set of granted Django permissions. -/
structure CoreUser where
  id : Nat
  is_superuser : Bool
  is_staff : Bool
  role : UserRole
  perms : List String
deriving DecidableEq, Repr

/-- `User.is_editor` (`core/models.py` 353-358):
`role in [EDITOR, ADMIN]`. -/
def CoreUser.is_editor (u : CoreUser) : Bool :=
  decide (u.role = UserRole.editor) || decide (u.role = UserRole.admin)

/-- `User.is_admin` (`core/models.py` 367-372):
`role == ADMIN or is_superuser`. -/
def CoreUser.is_admin (u : CoreUser) : Bool :=
  decide (u.role = UserRole.admin) || u.is_superuser

/-- `User.has_perm`: membership in the user's granted permission set. -/
def CoreUser.has_perm (u : CoreUser) (p : String) : Bool :=
  u.perms.contains p

/-- The ownership slice of an `Article` row: primary key and author id
(`user == self.author` compares model instances, i.e. primary keys). -/
structure ArticleRow where
  id : Nat
  author : Nat
deriving DecidableEq, Repr

/-- `Article.can_edit` (`core/models.py` 1214-1227): superuser, or the
author, or an editor holding the `core.can_moderate` permission. -/
def ArticleRow.can_edit (art : ArticleRow) (u : CoreUser) : Bool :=
  if u.is_superuser then true
  else if u.id = art.author then true
  else if u.is_editor && u.has_perm "core.can_moderate" then true
  else false

/-- `Article.can_delete` (`core/models.py` 1229-1233): delegates to
`can_edit`. -/
def ArticleRow.can_delete (art : ArticleRow) (u : CoreUser) : Bool :=
  ArticleRow.can_edit art u

/-- `IsOwnerOrReadOnly.__call__` (`core/permissions.py` 18-60): safe methods
pass; otherwise the object id is extracted from the request (here a
parameter, `none` when absent), the object is fetched by primary key from
the table (a pk-to-author association), and access is granted exactly when
the requester is the owner.  A missing id or missing object denies. -/
def IsOwnerOrReadOnly.call (method : String) (obj_id : Option Nat)
    (db : List (Nat × Nat)) (user_id : Nat) : Bool :=
  if ["GET", "HEAD", "OPTIONS"].contains method then true
  else
    match obj_id with
    | none => false
    | some i =>
        match db.lookup i with
        | some owner => decide (owner = user_id)
        | none => false

theorem filter_unique_token (store : List AuthToken) (t : AuthToken)
    (q : AuthToken → Bool)
    (huniq : store.Pairwise (fun r1 r2 => r1.token ≠ r2.token))
    (hmem : t ∈ store)
    (hq : ∀ r, q r = true → r.token = t.token) :
    store.filter q = if q t then [t] else [] := by
  induction store with
  | nil => cases hmem
  | cons h tl ih =>
      rcases List.pairwise_cons.mp huniq with ⟨hh, htl⟩
      by_cases hhe : h = t
      · subst hhe
        have htlnil : tl.filter q = [] := by
          refine List.filter_eq_nil_iff.mpr ?_
          intro r hr hqr
          exact hh r hr (hq r hqr).symm
        rw [List.filter_cons, htlnil]
      · have hmt : t ∈ tl := by
          rcases List.mem_cons.mp hmem with h1 | h1
          · exact absurd h1.symm hhe
          · exact h1
        have hqh : q h = false := by
          cases hqh : q h with
          | false => rfl
          | true => exact absurd (hq h hqh) (hh t hmt)
        rw [List.filter_cons, if_neg (by simp [hqh])]
        exact ih htl hmt

theorem eq_of_mem_token (store : List AuthToken) (t x : AuthToken)
    (huniq : store.Pairwise (fun r1 r2 => r1.token ≠ r2.token))
    (hmem : t ∈ store) (hx : x ∈ store) (he : x.token = t.token) : x = t := by
  induction store with
  | nil => cases hmem
  | cons h tl ih =>
      rcases List.pairwise_cons.mp huniq with ⟨hh, htl⟩
      rcases List.mem_cons.mp hmem with h1 | h1
      · rcases List.mem_cons.mp hx with h2 | h2
        · rw [h2, h1]
        · exact absurd (h1 ▸ he).symm (hh x h2)
      · rcases List.mem_cons.mp hx with h2 | h2
        · exact absurd (h2 ▸ he) (hh t h1)
        · exact ih htl h1 h2

/-- C3: with pairwise-distinct stored secrets, resolving a 256-character
secret `s` whose matching stored token is `t` returns the owning user iff
`t.is_active` and `now` is strictly before `t.expires_at`; when either
condition is flipped the lookup returns `none`; and the request gate
`TokenAuthentication.authenticate` agrees with
`TokenService.get_user_from_token` on the resolved principal. -/
theorem resolve_succeeds_iff_active_and_unexpired (store : List AuthToken)
    (now : Nat) (s : String) (t : AuthToken)
    (huniq : store.Pairwise (fun r1 r2 => r1.token ≠ r2.token))
    (hmem : t ∈ store) (htok : t.token = s) (hlen : s.length = 256) :
    (TokenService.get_user_from_token store now s = some t.user
      ↔ (t.is_active = true ∧ now < t.expires_at))
    ∧ (¬(t.is_active = true ∧ now < t.expires_at)
      → TokenService.get_user_from_token store now s = none)
    ∧ (TokenAuthentication.authenticate store now s).map Prod.fst
      = TokenService.get_user_from_token store now s := by
  have hfil := filter_unique_token store t
    (fun r => r.token == s && r.is_active && decide (now < r.expires_at))
    huniq hmem
    (by
      intro r hr
      simp only [Bool.and_eq_true, beq_iff_eq] at hr
      rw [hr.1.1, htok])
  have hqt : ((fun r => r.token == s && r.is_active && decide (now < r.expires_at)) t)
      = (t.is_active && decide (now < t.expires_at)) := by
    simp [htok]
  refine ⟨?_, ?_, ?_⟩
  · unfold TokenService.get_user_from_token getActiveToken
    rw [hfil, hqt]
    by_cases hact : t.is_active = true
    · by_cases hexp : now < t.expires_at
      · simp [hact, hexp]
      · simp [hact, hexp]
    · simp only [Bool.not_eq_true] at hact
      simp [hact]
  · intro hno
    unfold TokenService.get_user_from_token getActiveToken
    rw [hfil, hqt]
    by_cases hact : t.is_active = true
    · have hexp : ¬(now < t.expires_at) := fun he => hno ⟨hact, he⟩
      simp [hact, hexp]
    · simp only [Bool.not_eq_true] at hact
      simp [hact]
  · unfold TokenAuthentication.authenticate TokenService.get_user_from_token
    rw [if_neg (by simp [hlen])]
    cases hga : getActiveToken store now s with
    | some r => simp
    | none => simp

/-- A 256-character sample secret for concrete checks. -/
def sampleSecret : String := String.mk (List.replicate 256 'a')

/-- A stored, active, unexpired token owning `sampleSecret`. -/
def sampleToken : AuthToken := ⟨0, 7, sampleSecret, "login", true, 10, none⟩

theorem resolve_succeeds_iff_active_and_unexpired_witness :
    (TokenService.get_user_from_token [sampleToken] 0 sampleSecret
        = some sampleToken.user
      ↔ (sampleToken.is_active = true ∧ 0 < sampleToken.expires_at))
    ∧ (¬(sampleToken.is_active = true ∧ 0 < sampleToken.expires_at)
      → TokenService.get_user_from_token [sampleToken] 0 sampleSecret = none)
    ∧ (TokenAuthentication.authenticate [sampleToken] 0 sampleSecret).map
        Prod.fst
      = TokenService.get_user_from_token [sampleToken] 0 sampleSecret :=
  resolve_succeeds_iff_active_and_unexpired [sampleToken] 0 sampleSecret
    sampleToken (by simp) (by simp) rfl rfl

/-- C4: every secret produced by the issuance paths (registration and login
both call `TokenService.create_user_token`, which calls
`AuthToken.generate_token`) has length exactly 256, and the `token_length`
field of the issuance response equals that fixed length.
`AuthToken.generate_token` is modelled from the spec (its class is not under
src/), which pins the generated secret to exactly 256 characters. -/
theorem issued_secret_length_eq_256 (store : List AuthToken) (u now : Nat)
    (rand : Nat → Char) :
    (AuthToken.generate_token rand).length = 256
    ∧ (register store u now rand).1.token_length = 256
    ∧ (register store u now rand).1.token.length = 256 := by
  have hlen : (AuthToken.generate_token rand).length = 256 := by
    simp [AuthToken.generate_token, String.length]
  exact ⟨hlen,
    by simp [register, TokenService.create_user_token, hlen],
    by simp [register, TokenService.create_user_token, hlen]⟩

/-- A concrete character source for evaluating issuance. -/
def cRand : Nat → Char := fun _ => 'a'

/-- C5 counterexample: issuing a token to an empty store persists a row whose
`token` column equals the raw returned secret verbatim (the map over the
stored rows' `token` fields is exactly the returned secret), and presenting
that same raw secret to the authentication gate succeeds — so the raw
secret, not a digest, is both what is stored and the storage query key,
contradicting the claim that only a one-way digest is persisted and used for
lookup. -/
theorem create_user_token_persists_raw_secret :
    ((TokenService.create_user_token [] 1 "Login token" 0 cRand).2.map
        AuthToken.token)
      = [(TokenService.create_user_token [] 1 "Login token" 0 cRand).1]
    ∧ (TokenAuthentication.authenticate
        (TokenService.create_user_token [] 1 "Login token" 0 cRand).2 0
        (TokenService.create_user_token [] 1 "Login token" 0 cRand).1).map
        Prod.fst
      = some 1 := by
  exact ⟨rfl, rfl⟩

/-- C5 amended: issuance appends a row whose `token` column holds the raw
secret itself (no digest is computed), and the lookup in
`getActiveToken` — used by `authenticate` and `get_user_from_token` — keys
on raw-secret equality: whenever it returns a row, that row's `token` column
equals the presented raw secret. -/
theorem issuance_stores_raw_secret_and_lookup_by_raw :
    (∀ (store : List AuthToken) (u : Nat) (nm : String) (now : Nat)
        (rand : Nat → Char),
      (TokenService.create_user_token store u nm now rand).2
        = store ++ [⟨store.length, u,
            (TokenService.create_user_token store u nm now rand).1, nm, true,
            now + 30 * 86400, none⟩])
    ∧ (∀ (store : List AuthToken) (now : Nat) (s : String),
      (getActiveToken store now s).map AuthToken.token
        = (getActiveToken store now s).map (fun _ => s)) := by
  constructor
  · intro store u nm now rand
    rfl
  · intro store now s
    unfold getActiveToken
    cases hf : store.filter (fun r =>
        r.token == s && r.is_active && decide (now < r.expires_at)) with
    | nil => rfl
    | cons a tl =>
        cases tl with
        | nil =>
            have ha : a ∈ store.filter (fun r =>
                r.token == s && r.is_active && decide (now < r.expires_at)) := by
              rw [hf]
              exact List.mem_cons_self a []
            have hp := List.of_mem_filter ha
            simp only [Bool.and_eq_true, beq_iff_eq] at hp
            simp [hp.1.1]
        | cons b tl2 => rfl

/-- C6: `revoke_user_tokens` deactivates every token owned by the principal
(any row of the updated store belonging to the user is inactive), and
afterwards resolving any secret previously issued to that principal — both
through `get_user_from_token` and through the `authenticate` gate — fails,
as long as no new token is issued. -/
theorem revoke_all_then_resolve_fails (store : List AuthToken) (u now : Nat)
    (s : String) (t : AuthToken)
    (huniq : store.Pairwise (fun r1 r2 => r1.token ≠ r2.token))
    (hmem : t ∈ store) (htok : t.token = s) (huser : t.user = u) :
    (∀ r ∈ (TokenService.revoke_user_tokens store u).1,
      r.user = u → r.is_active = false)
    ∧ TokenService.get_user_from_token
        (TokenService.revoke_user_tokens store u).1 now s = none
    ∧ TokenAuthentication.authenticate
        (TokenService.revoke_user_tokens store u).1 now s = none := by
  have hfil : ((TokenService.revoke_user_tokens store u).1).filter (fun r =>
      r.token == s && r.is_active && decide (now < r.expires_at)) = [] := by
    refine List.filter_eq_nil_iff.mpr ?_
    intro r hr hqr
    simp only [Bool.and_eq_true, beq_iff_eq] at hqr
    rcases List.mem_map.mp hr with ⟨x, hx, hfx⟩
    have htokx : r.token = x.token := by
      by_cases hc : (decide (x.user = u) && x.is_active) = true
      · rw [if_pos hc] at hfx
        rw [← hfx]
      · rw [if_neg hc] at hfx
        rw [← hfx]
    have hxt : x = t :=
      eq_of_mem_token store t x huniq hmem hx
        (htokx.symm.trans (hqr.1.1.trans htok.symm) : x.token = t.token)
    subst hxt
    by_cases hact : x.is_active = true
    · have hcond : (decide (x.user = u) && x.is_active) = true := by
        simp [huser, hact]
      rw [if_pos hcond] at hfx
      have hra := hqr.1.2
      rw [← hfx] at hra
      simp at hra
    · rw [if_neg (by simp [Bool.and_eq_true]; intro _; simp_all)] at hfx
      rw [← hfx] at hqr
      exact hact hqr.1.2
  refine ⟨?_, ?_, ?_⟩
  · intro r hr hru
    rcases List.mem_map.mp hr with ⟨x, hx, hfx⟩
    by_cases hc : (decide (x.user = u) && x.is_active) = true
    · rw [if_pos hc] at hfx
      rw [← hfx]
    · rw [if_neg hc] at hfx
      subst hfx
      simp only [Bool.and_eq_true, decide_eq_true_eq] at hc
      cases hxa : x.is_active with
      | false => rfl
      | true => exact absurd ⟨hru, hxa⟩ hc
  · unfold TokenService.get_user_from_token getActiveToken
    rw [hfil]
    rfl
  · unfold TokenAuthentication.authenticate
    by_cases hlen : s.length ≠ 256
    · rw [if_pos hlen]
    · rw [if_neg hlen]
      unfold getActiveToken
      rw [hfil]

theorem revoke_all_then_resolve_fails_witness :
    (∀ r ∈ (TokenService.revoke_user_tokens
        [(⟨0, 5, "tok", "n", true, 10, none⟩ : AuthToken)] 5).1,
      r.user = 5 → r.is_active = false)
    ∧ TokenService.get_user_from_token
        (TokenService.revoke_user_tokens
          [(⟨0, 5, "tok", "n", true, 10, none⟩ : AuthToken)] 5).1 0 "tok" = none
    ∧ TokenAuthentication.authenticate
        (TokenService.revoke_user_tokens
          [(⟨0, 5, "tok", "n", true, 10, none⟩ : AuthToken)] 5).1 0 "tok"
      = none :=
  revoke_all_then_resolve_fails
    [(⟨0, 5, "tok", "n", true, 10, none⟩ : AuthToken)] 5 0 "tok"
    ⟨0, 5, "tok", "n", true, 10, none⟩ (by simp) (by simp) rfl rfl

/-- C10: when the presented bearer token matches no active stored token —
unknown, or already revoked — the logout endpoint still returns the
success message and leaves the store unchanged, so a second revocation of
the same token is indistinguishable from the first at the interface. -/
theorem logout_unknown_token_succeeds_unchanged (store : List AuthToken)
    (s : String)
    (hno : ∀ r ∈ store, ¬(r.token = s ∧ r.is_active = true)) :
    logout_user store s = some (store, "Logged out successfully") := by
  unfold logout_user
  by_cases hs : s = ""
  · rw [if_neg (by simp [hs])]
  · rw [if_pos hs]
    have hfil : store.filter (fun r => r.token == s && r.is_active) = [] := by
      refine List.filter_eq_nil_iff.mpr ?_
      intro r hr hqr
      simp only [Bool.and_eq_true, beq_iff_eq] at hqr
      exact hno r hr ⟨hqr.1, hqr.2⟩
    rw [hfil]

theorem logout_unknown_token_succeeds_unchanged_witness :
    logout_user [(⟨0, 1, "t", "n", false, 10, none⟩ : AuthToken)] "t"
      = some ([(⟨0, 1, "t", "n", false, 10, none⟩ : AuthToken)],
          "Logged out successfully") :=
  logout_unknown_token_succeeds_unchanged
    [(⟨0, 1, "t", "n", false, 10, none⟩ : AuthToken)] "t" (by decide)

/-- C7 counterexample: the route-level owner predicate denies a mutating
request from a staff-and-role-admin principal who is not the owner (it
consults only ownership, never admin flags), and the model-level
`Article.can_edit` both denies an `is_admin` principal who is neither
superuser nor author nor permission-holder, and grants a plain editor
holding `core.can_moderate` who is neither admin nor author — three
concrete violations of "true iff admin or owner". -/
theorem owner_check_denies_admin_and_allows_editor :
    IsOwnerOrReadOnly.call "PUT" (some 1) [(1, 1)] 2 = false
    ∧ (⟨2, false, true, UserRole.admin, []⟩ : CoreUser).is_admin = true
    ∧ ArticleRow.can_edit ⟨1, 1⟩ ⟨2, false, true, UserRole.admin, []⟩ = false
    ∧ (⟨3, false, false, UserRole.editor,
        ["core.can_moderate"]⟩ : CoreUser).is_admin = false
    ∧ ArticleRow.can_edit ⟨1, 1⟩
        ⟨3, false, false, UserRole.editor, ["core.can_moderate"]⟩ = true := by
  decide

/-- C7 amended: `Article.can_edit` (and `can_delete`, which delegates to it)
grants exactly superusers, the author, and editors holding the
`core.can_moderate` permission; the route-level `IsOwnerOrReadOnly` check
passes safe methods unconditionally and otherwise grants exactly the owner
of the addressed object, with no admin override. -/
theorem can_edit_and_owner_check_characterization :
    (∀ (art : ArticleRow) (u : CoreUser),
      ArticleRow.can_edit art u = true
        ↔ (u.is_superuser = true ∨ u.id = art.author
            ∨ (u.is_editor = true ∧ u.has_perm "core.can_moderate" = true)))
    ∧ (∀ (art : ArticleRow) (u : CoreUser),
      ArticleRow.can_delete art u = ArticleRow.can_edit art u)
    ∧ (∀ (method : String) (i : Option Nat) (db : List (Nat × Nat)) (uid : Nat),
      IsOwnerOrReadOnly.call method i db uid = true
        ↔ (["GET", "HEAD", "OPTIONS"].contains method = true
            ∨ ∃ pk owner, i = some pk ∧ db.lookup pk = some owner
                ∧ owner = uid)) := by
  refine ⟨?_, fun _ _ => rfl, ?_⟩
  · intro art u
    unfold ArticleRow.can_edit
    split_ifs with h1 h2 h3
    · simp [h1]
    · simp [h2]
    · simp only [Bool.and_eq_true] at h3
      simp [h3.1, h3.2]
    · simp only [Bool.and_eq_true, not_and] at h3
      constructor
      · intro hf
        exact absurd hf (by simp)
      · intro hor
        rcases hor with ho | ho | ho
        · exact absurd ho h1
        · exact absurd ho h2
        · exact absurd ho.2 (h3 ho.1)
  · intro m i db uid
    unfold IsOwnerOrReadOnly.call
    split_ifs with h1
    · simp at h1
      simp [h1]
    · simp at h1
      cases i with
      | none => simp [h1]
      | some pk =>
          cases hl : db.lookup pk with
          | none => simp [h1, hl]
          | some owner => simp [h1, hl]

/-- C9 counterexample: a `Like` row referencing both an article and a
comment satisfies every constraint in `Like.Meta.constraints` — the
database-level enforcement — while the application-level `Like.clean`
rejects it; so the "never both" half of the exclusivity invariant is not
enforced at the data-model level. -/
theorem db_constraints_allow_both_targets :
    like_db_constraints_ok [⟨0, 1, some 1, some 2, LikeType.like⟩]
    ∧ (⟨0, 1, some 1, some 2, LikeType.like⟩ : Like).article.isSome = true
    ∧ (⟨0, 1, some 1, some 2, LikeType.like⟩ : Like).comment.isSome = true
    ∧ Like.clean_ok (some 1) (some 2) = false := by
  refine ⟨⟨?_, ?_, ?_⟩, rfl, rfl, rfl⟩
  · intro r hr
    rcases List.mem_singleton.mp hr with rfl
    rfl
  · simp
  · simp

/-- C9 amended: the database check constraint `like_must_have_target`
enforces exactly "at least one target" (never neither); the full "exactly
one target" rule — never neither and never both — is enforced only by the
application-level `Like.clean` validation. -/
theorem target_exclusivity_split_between_db_and_clean :
    (∀ r : Like, like_must_have_target r = true
      ↔ (r.article.isSome = true ∨ r.comment.isSome = true))
    ∧ (∀ a c : Option Nat, Like.clean_ok a c = true
      ↔ ((a.isSome = true ∨ c.isSome = true)
          ∧ ¬(a.isSome = true ∧ c.isSome = true))) := by
  constructor
  · intro r
    simp [like_must_have_target]
  · intro a c
    simp only [Like.clean_ok, Bool.and_eq_true, Bool.or_eq_true,
      Bool.not_eq_true', Bool.and_eq_false_iff]
    constructor
    · intro h
      refine ⟨h.1, ?_⟩
      intro hb
      rcases h.2 with h2 | h2
      · rw [hb.1] at h2
        cases h2
      · rw [hb.2] at h2
        cases h2
    · intro h
      refine ⟨h.1, ?_⟩
      by_cases ha : a.isSome = true
      · right
        cases hc : c.isSome with
        | false => rfl
        | true => exact absurd ⟨ha, hc⟩ h.2
      · left
        simp only [Bool.not_eq_true] at ha
        exact ha


end BackAdmin
